import Mathlib

/-!
Shallow embedding of the file lifecycle and storage-tier management engine of
`filer/models/filemodels.py`, together with the delivery backends exercised by
`tests/test_server_backends.py`.

Conventions of the embedding:
* blob bytes are `List Nat` (each element a byte value);
* a Django storage backend is a partial map `String → Option (List Nat)`
  from blob name to blob bytes; `none` means the blob is absent and any
  `open`/`size`/`read` on it raises;
* machine integers do not occur (Python ints are unbounded); SHA-1 internals
  use `Nat` reduced by `% 2 ^ 32` where the algorithm works on 32-bit words;
* fallible operations return an explicit success/failure constructor carrying
  the state at the moment the exception escapes, mirroring the fact that a
  Python exception leaves already-performed side effects in place.

Field-name mapping (Lean identifiers cannot comfortably carry the Python
leading underscore): `_file_size` ↦ `file_size`, `_old_is_public` ↦
`old_is_public`, `_file_data_changed_hint` ↦ `data_changed_hint`,
`File._move_file` ↦ `File.move_file`.
-/

/-- A readable/seekable file object: its full byte content plus the current
read position.  `seek`/`read` of the Python file API act on `pos`. -/
structure FileStream where
  content : List Nat
  pos : Nat
  deriving DecidableEq, Repr

/-- `file.read(n)`: returns at most `n` bytes starting at the current
position and advances the position by the number of bytes produced. -/
def fileRead (s : FileStream) (n : Nat) : List Nat × FileStream :=
  let buf := (s.content.drop s.pos).take n
  (buf, { s with pos := s.pos + buf.length })

/-! ### SHA-1 (embedding of `hashlib.sha1`)

Straight transcription of the SHA-1 algorithm on byte lists; words are `Nat`
taken `% 2 ^ 32`. -/

/-- Truncate to a 32-bit word. -/
def w32 (n : Nat) : Nat := n % 4294967296

/-- Rotate a 32-bit word left by `k` bits (inputs are already `< 2 ^ 32`). -/
def rotl (k n : Nat) : Nat := w32 ((n <<< k) ||| (n >>> (32 - k)))

/-- Big-endian byte expansion of `v` into exactly `k` bytes. -/
def beBytes : Nat → Nat → List Nat
  | 0, _ => []
  | k + 1, v => beBytes k (v / 256) ++ [v % 256]

/-- SHA-1 message padding: append `0x80`, zero bytes up to 56 mod 64, then
the 8-byte big-endian bit length. -/
def sha1Pad (msg : List Nat) : List Nat :=
  msg ++ [128] ++ List.replicate ((119 - msg.length % 64) % 64) 0 ++ beBytes 8 (8 * msg.length)

/-- Group bytes into big-endian 32-bit words. -/
def bytesToWords : List Nat → List Nat
  | a :: b :: c :: d :: rest => (((a * 256 + b) * 256 + c) * 256 + d) :: bytesToWords rest
  | _ => []

/-- Extend the 16-word schedule, one word per unit of fuel (used with 64). -/
def sha1Extend : Nat → Array Nat → Array Nat
  | 0, ws => ws
  | fuel + 1, ws =>
    let i := ws.size
    let wNew := rotl 1 ((ws.getD (i - 3) 0) ^^^ (ws.getD (i - 8) 0) ^^^
      (ws.getD (i - 14) 0) ^^^ (ws.getD (i - 16) 0))
    sha1Extend fuel (ws.push wNew)

/-- Round function and round constant for round `i`. -/
def sha1FK (i b c d : Nat) : Nat × Nat :=
  if i < 20 then ((b &&& c) ||| ((b ^^^ 4294967295) &&& d), 1518500249)
  else if i < 40 then (b ^^^ c ^^^ d, 1859775393)
  else if i < 60 then ((b &&& c) ||| (b &&& d) ||| (c &&& d), 2400959708)
  else (b ^^^ c ^^^ d, 3395469782)

/-- The 80 compression rounds, folding over the schedule words. -/
def sha1Rounds : Nat → List Nat → Nat × Nat × Nat × Nat × Nat → Nat × Nat × Nat × Nat × Nat
  | _, [], st => st
  | i, word :: rest, (a, b, c, d, e) =>
    let fk := sha1FK i b c d
    let temp := w32 (rotl 5 a + fk.1 + e + fk.2 + word)
    sha1Rounds (i + 1) rest (temp, a, rotl 30 b, c, d)

/-- Process one 64-byte block into the running hash state. -/
def sha1Block (h : Nat × Nat × Nat × Nat × Nat) (block : List Nat) : Nat × Nat × Nat × Nat × Nat :=
  let ws := (sha1Extend 64 (bytesToWords block).toArray).toList
  let st := sha1Rounds 0 ws h
  (w32 (h.1 + st.1), w32 (h.2.1 + st.2.1), w32 (h.2.2.1 + st.2.2.1),
   w32 (h.2.2.2.1 + st.2.2.2.1), w32 (h.2.2.2.2 + st.2.2.2.2))

/-- Split a list into consecutive chunks of `n` elements (last may be short). -/
def chunksOf (n : Nat) (l : List Nat) : List (List Nat) :=
  if l = [] ∨ n = 0 then [] else l.take n :: chunksOf n (l.drop n)
termination_by l.length
decreasing_by
  rename_i h
  push_neg at h
  have h1 : 0 < l.length := List.length_pos.mpr h.1
  simp only [List.length_drop]
  omega

/-- Lowercase hexadecimal digit characters. -/
def hexChar : Nat → Char
  | 0 => '0' | 1 => '1' | 2 => '2' | 3 => '3' | 4 => '4' | 5 => '5' | 6 => '6' | 7 => '7'
  | 8 => '8' | 9 => '9' | 10 => 'a' | 11 => 'b' | 12 => 'c' | 13 => 'd' | 14 => 'e'
  | 15 => 'f' | _ => '0'

/-- Two lowercase hex characters for one byte. -/
def byteToHex (b : Nat) : List Char := [hexChar (b / 16 % 16), hexChar (b % 16)]

/-- `hashlib.sha1(msg).hexdigest()`: the lowercase-hex SHA-1 digest of `msg`. -/
def sha1HexBytes (msg : List Nat) : String :=
  let h := (chunksOf 64 (sha1Pad msg)).foldl sha1Block
    (1732584193, 4023233417, 2562383102, 271733878, 3285377520)
  String.mk (((beBytes 4 h.1 ++ beBytes 4 h.2.1 ++ beBytes 4 h.2.2.1 ++
    beBytes 4 h.2.2.2.1 ++ beBytes 4 h.2.2.2.2).map byteToHex).flatten)

/-! ### The `File` model and the storage world -/

/-- The fields of `filer.models.filemodels.File` that the lifecycle engine
reads or writes.  `fileName` is `self.file.name` (the blob path; `""` means
the file field is unset, which is falsy in Python). -/
structure File where
  pk : Option Nat
  fileName : String
  is_public : Bool
  sha1 : String
  file_size : Option Int
  old_is_public : Bool
  data_changed_hint : Option Bool
  original_filename : String
  deriving DecidableEq, Repr

/-- The two storage tiers plus a fault-injection flag for `save` on the
destination storage (`saveOk = false` makes the next destination write
raise, as in the spec's simulated write failure). -/
structure StorageWorld where
  publicStore : String → Option (List Nat)
  privateStore : String → Option (List Nat)
  saveOk : Bool

/-- Look a blob up in the tier selected by `pub`. -/
def getStore (w : StorageWorld) (pub : Bool) (name : String) : Option (List Nat) :=
  if pub then w.publicStore name else w.privateStore name

/-- Write (`some bs`) or delete (`none`) a blob in the tier selected by `pub`. -/
def setStore (w : StorageWorld) (pub : Bool) (name : String) (v : Option (List Nat)) :
    StorageWorld :=
  if pub then { w with publicStore := fun n => if n = name then v else w.publicStore n }
  else { w with privateStore := fun n => if n = name then v else w.privateStore n }

/-- The bytes reachable through `self.file`, as a stream positioned at 0:
`none` when the file field is unset or the blob is missing from its tier (in
which case `self.file.size` / `seek` / `read` raise). -/
def File.blob (w : StorageWorld) (r : File) : Option FileStream :=
  if r.fileName = "" then none
  else (getStore w r.is_public r.fileName).map (fun bs => ⟨bs, 0⟩)

/-! ### `generate_sha1` and `file_data_changed` -/

/-- The `while True: buf = self.file.read(104857600); if not buf: break;
sha.update(buf)` loop of `File.generate_sha1`.  `sha` is the byte sequence
fed to the running `hashlib.sha1()` object so far. -/
def sha1UpdateLoop (s : FileStream) (sha : List Nat) : FileStream × List Nat :=
  let res := fileRead s 104857600
  if res.1.isEmpty then (res.2, sha)
  else sha1UpdateLoop res.2 (sha ++ res.1)
termination_by s.content.length - s.pos
decreasing_by
  rename_i h
  simp only [fileRead, List.isEmpty_iff] at h ⊢
  have h1 : 0 < ((s.content.drop s.pos).take 104857600).length := List.length_pos.mpr h
  have h2 : s.pos < s.content.length := by
    by_contra hc
    push_neg at hc
    refine h ?_
    show (s.content.drop s.pos).take 104857600 = []
    rw [List.drop_eq_nil_of_le hc, List.take_nil]
  simp only [List.length_take, List.length_drop] at h1 ⊢
  omega

/-- `File.generate_sha1`: seek to 0, hash the whole stream in 104857600-byte
chunks, store the lowercase hex digest in `self.sha1`, seek back to 0. -/
def File.generate_sha1 (r : File) (s : FileStream) : File × FileStream :=
  let s1 : FileStream := { s with pos := 0 }
  let res := sha1UpdateLoop s1 []
  ({ r with sha1 := sha1HexBytes res.2 }, { res.1 with pos := 0 })

/-- Python truthiness of `self._file_size` (`None` and `0` are falsy). -/
def truthySize : Option Int → Bool
  | none => false
  | some n => n != 0

/-- The body of `File.file_data_changed` after the hint check: the
`post_init` guard, then the two `try` blocks caching size and digest.
`blob = none` makes both `self.file.size` and `self.generate_sha1()` raise. -/
def fdcCore (r : File) (blob : Option FileStream) (post_init : Bool) : File × Bool :=
  if post_init && truthySize r.file_size && (r.sha1 != "") then (r, false)
  else
    let r1 := { r with file_size := blob.map (fun s => (s.content.length : Int)) }
    match blob with
    | some s => ((File.generate_sha1 r1 s).1, true)
    | none => ({ r1 with sha1 := "" }, true)

/-- `File.file_data_changed`: consume `self._file_data_changed_hint` first
(a `False` hint suppresses the update), then run the core update. -/
def File.file_data_changed (r : File) (blob : Option FileStream) (post_init : Bool) :
    File × Bool :=
  match r.data_changed_hint with
  | some hint =>
    let r' := { r with data_changed_hint := none }
    if hint = false then (r', false) else fdcCore r' blob post_init
  | none => fdcCore r blob post_init

/-! ### `_move_file`, `save`, `delete` -/

/-- Result of an operation that threads the storage world and the record and
may raise: `err` carries the state at the moment the exception escapes. -/
inductive MoveResult where
  | ok (w : StorageWorld) (r : File)
  | err (w : StorageWorld) (r : File)

/-- `File._move_file`.  `genName` stands for
`self._meta.get_field('file').generate_filename(self, self.original_filename)`.
The thumbnail invalidation toggles `is_public` twice (net record change:
none) and touches no blob of either tier, so it does not appear in the
state.  Steps, in source order: resolve names and tiers, open and read the
source blob in full, set the data-changed hint to `False`, save to the
destination tier (the assignment `self.file = dst_storage.save(...)`
triggers `file_data_changed`, which consumes the hint), then delete the
source blob. -/
def File.move_file (genName : File → String) (w : StorageWorld) (r : File) : MoveResult :=
  let src_file_name := r.fileName
  let dst_file_name := genName r
  let srcPub := !r.is_public
  let dstPub := r.is_public
  match getStore w srcPub src_file_name with
  | none => .err w r
  | some contents =>
    let r1 : File := { r with data_changed_hint := some false }
    if w.saveOk = false then .err w r1
    else
      let w1 := setStore w dstPub dst_file_name (some contents)
      let r2 : File := { r1 with fileName := dst_file_name }
      let r3 := (File.file_data_changed r2 (some ⟨contents, 0⟩) false).1
      let w2 := setStore w1 srcPub src_file_name none
      .ok w2 r3

/-- `File.save`: a persisted record (`pk` non-null) whose `is_public`
differs from `_old_is_public` undergoes the visibility transition before the
row is written; afterwards `_old_is_public` is refreshed.  (The ORM row
write itself is outside the storage world.) -/
def File.save (genName : File → String) (w : StorageWorld) (r : File) : MoveResult :=
  if (r.old_is_public != r.is_public) && r.pk.isSome then
    match File.move_file genName w r with
    | .ok w' r' => .ok w' { r' with old_is_public := r'.is_public }
    | .err w' r' => .err w' r'
  else .ok w r

/-- `File.delete`: `super().delete()` removes the row first, then the blob
is removed only if no remaining row references the same
`(file name, is_public)` pair. -/
def File.delete (db : List File) (w : StorageWorld) (r : File) : List File × StorageWorld :=
  let db' := db.filter (fun x => !(x.pk == r.pk))
  let w' := if db'.any (fun x => x.fileName == r.fileName && x.is_public == r.is_public)
    then w else setStore w r.is_public r.fileName none
  (db', w')

/-! ### `FileManager` queries

A queryset over the file table is a `List File`; `filter`/`exclude` keep the
table order.  A Python `dict` keyed by digest is an association list with
overwriting insert. -/

/-- `FileManager.find_duplicates(file_obj)`:
`[i for i in self.exclude(pk=file_obj.pk).filter(sha1=file_obj.sha1)]`. -/
def FileManager.find_duplicates (db : List File) (file_obj : File) : List File :=
  (db.filter (fun x => !(x.pk == file_obj.pk))).filter (fun x => x.sha1 == file_obj.sha1)

/-- Lookup in a digest-keyed association list (Python `dict` access). -/
def lookupAssoc : List (String × List File) → String → Option (List File)
  | [], _ => none
  | (k, v) :: r, d => if k = d then some v else lookupAssoc r d

/-- Overwriting insert into a digest-keyed association list
(Python `r[sha1] = q`). -/
def insertAssoc : List (String × List File) → String → List File → List (String × List File)
  | [], k, v => [(k, v)]
  | (k', v') :: r, k, v =>
    if k' = k then (k, v) :: r else (k', v') :: insertAssoc r k v

/-- One iteration of the `find_all_duplicates` loop body. -/
def fadStep (db : List File) (r : List (String × List File)) (file_obj : File) :
    List (String × List File) :=
  if file_obj.sha1 ≠ "" then
    let q := db.filter (fun x => x.sha1 == file_obj.sha1)
    if q.length > 1 then insertAssoc r file_obj.sha1 q else r
  else r

/-- `FileManager.find_all_duplicates()`: for every record with a truthy
digest, collect the full digest group when it has more than one member. -/
def FileManager.find_all_duplicates (db : List File) : List (String × List File) :=
  db.foldl (fadStep db) []

/-! ### `canonical_url` -/

/-- `File.canonical_url`.  `route` is the outcome of
`reverse('canonical', kwargs={'uploaded_at': ..., 'file_id': ...})`:
`some url` when the canonical route is configured (and then the guarded
branch returns that url), `none` when `reverse` raises `NoReverseMatch`
(swallowed by `except NoReverseMatch: pass`).  The guard is
`if self.file and self.is_public` — `self.file` is falsy iff its name is
empty. -/
def File.canonical_url (r : File) (route : Option String) : String :=
  if r.fileName ≠ "" ∧ r.is_public = true then
    match route with
    | some u => u
    | none => ""
  else ""

/-! ### Delivery backends (`ProxyHeaderRedirect` / `AcceleratedSendfile`)

The backend classes live in `filer/server/backends/`, which is not part of
the sources here; only `tests/test_server_backends.py` is.  They are
therefore modelled from the spec (§4.5) and checked against the behaviour
the tests assert. -/

/-- An HTTP response: just its header list matters to these backends. -/
structure HttpResponse where
  headers : List (String × String)
  deriving DecidableEq, Repr

/-- Modelled from the spec: the ProxyHeaderRedirect backend
(`NginxXAccelRedirectServer`, absent from the sources).  "Never opens the
blob.  Emits a response carrying a redirect-instruction header
(`X-Accel-Redirect`) whose value is a location string built from a
configured internal-location prefix plus the blob's path.  Must not raise
even if the blob is physically absent — delegation is purely path-based.
The underlying file handle must remain in the closed state throughout."
`handleClosed` is the state of `filer_file.file`'s handle, threaded through
unchanged because the backend performs no I/O; the storage world is taken
as an argument precisely to show the response never depends on it. -/
def nginxServe (nginx_location : String) (w : StorageWorld) (r : File)
    (handleClosed : Bool) : HttpResponse × Bool :=
  (⟨[("X-Accel-Redirect", nginx_location ++ "/" ++ r.fileName)]⟩, handleClosed)

/-- Modelled from the spec: the AcceleratedSendfile backend
(`ApacheXSendfileServer`, absent from the sources).  "Never opens the blob.
Emits a response carrying a header naming the absolute filesystem path of
the blob.  Must not raise even if the blob is physically absent.  File
handle remains closed."  `location` is the storage's filesystem location,
so `location ++ "/" ++ name` is `filer_file.file.path`. -/
def xsendfileServe (location : String) (w : StorageWorld) (r : File)
    (handleClosed : Bool) : HttpResponse × Bool :=
  (⟨[("X-Sendfile", location ++ "/" ++ r.fileName)]⟩, handleClosed)

/-- The record state an operation leaves behind, whether it raised or not. -/
def MoveResult.file : MoveResult → File
  | .ok _ r => r
  | .err _ r => r

/-- The storage-world state an operation leaves behind. -/
def MoveResult.world : MoveResult → StorageWorld
  | .ok w _ => w
  | .err w _ => w

/-- The value `find_all_duplicates` is expected to associate with digest
`d`: the full digest group when `d` is non-empty and shared by two or more
records, nothing otherwise. -/
def dupVal (db : List File) (d : String) : Option (List File) :=
  if d ≠ "" ∧ 1 < (db.filter (fun x => x.sha1 == d)).length
  then some (db.filter (fun x => x.sha1 == d)) else none

/-- A concrete storage world used by the witnesses: one shared public blob. -/
def demoWorld : StorageWorld :=
  ⟨fun n => if n = "shared.txt" then some [1, 2] else none, fun _ => none, true⟩

/-- A concrete record awaiting a private-to-public visibility transition. -/
def demoMoveRecord : File :=
  ⟨some 7, "src.bin", true, "e7bc", some 2, false, none, "src.bin"⟩

/-- A concrete world holding `demoMoveRecord`'s blob in the private tier;
`mkMoveWorld true` allows the destination write, `mkMoveWorld false` makes
it raise. -/
def mkMoveWorld (saveOk : Bool) : StorageWorld :=
  ⟨fun _ => none, fun n => if n = "src.bin" then some [7, 7] else none, saveOk⟩

/-! ### Helper lemmas -/

/-- A list is its first `n` elements followed by what remains after them. -/
theorem take_append_drop_length (l : List Nat) (n : Nat) :
    l.take n ++ l.drop ((l.take n).length) = l := by
  rw [List.length_take]
  rcases le_total n l.length with h | h
  · rw [Nat.min_eq_left h]
    exact List.take_append_drop n l
  · rw [Nat.min_eq_right h, List.take_of_length_le h, List.drop_length, List.append_nil]

/-- Closed form of the `generate_sha1` read loop: starting at any valid
position, it feeds the remaining bytes to the hash and leaves the stream at
its end. -/
theorem sha1UpdateLoop_eq (c : List Nat) (p : Nat) (sha : List Nat) (h : p ≤ c.length) :
    sha1UpdateLoop ⟨c, p⟩ sha = (⟨c, c.length⟩, sha ++ c.drop p) := by
  rw [sha1UpdateLoop]
  simp only [fileRead]
  by_cases hp : c.length ≤ p
  · have hpe : p = c.length := le_antisymm h hp
    rw [List.drop_eq_nil_of_le hp]
    simp [hpe]
  · push_neg at hp
    have hlen : 0 < ((c.drop p).take 104857600).length := by
      simp only [List.length_take, List.length_drop]
      omega
    have hne : (c.drop p).take 104857600 ≠ [] := List.length_pos.mp hlen
    have hple : p + ((c.drop p).take 104857600).length ≤ c.length := by
      simp only [List.length_take, List.length_drop]
      omega
    rw [sha1UpdateLoop_eq c (p + ((c.drop p).take 104857600).length) _ hple]
    simp only [List.isEmpty_iff, hne, if_false, Prod.mk.injEq, true_and, List.append_assoc]
    congr 1
    have hdd : c.drop (p + ((c.drop p).take 104857600).length)
        = (c.drop p).drop (((c.drop p).take 104857600).length) := by
      rw [List.drop_drop]
    rw [hdd, take_append_drop_length]
termination_by c.length - p
decreasing_by
  simp only [List.length_take, List.length_drop]
  omega

/-- Every digit `hexChar` can produce is a lowercase hexadecimal digit. -/
theorem hexChar_mem (n : Nat) :
    hexChar n ∈ "0123456789abcdef".toList := by
  unfold hexChar
  split <;> simp

/-- C7: `generate_sha1` reads the stream from position 0 in fixed-size
chunks of 104857600 bytes, sets `sha1` to the lowercase hex SHA-1 digest of
the entire content (all 40 of its characters are lowercase hex digits), and
restores the stream position to 0, so a repeated call on the unmodified
stream yields the same digest. -/
theorem generate_sha1_hashes_whole_content (r : File) (s : FileStream) :
    File.generate_sha1 r s = ({ r with sha1 := sha1HexBytes s.content }, ⟨s.content, 0⟩) ∧
    (sha1HexBytes s.content).length = 40 ∧
    (∀ ch ∈ (sha1HexBytes s.content).data,
      ch ∈ "0123456789abcdef".toList) ∧
    (File.generate_sha1 (File.generate_sha1 r s).1 (File.generate_sha1 r s).2).1.sha1
      = (File.generate_sha1 r s).1.sha1 := by
  have main : ∀ (r' : File) (c : List Nat) (p : Nat),
      File.generate_sha1 r' ⟨c, p⟩ = ({ r' with sha1 := sha1HexBytes c }, ⟨c, 0⟩) := by
    intro r' c p
    show (_, _) = _
    rw [show ({ (⟨c, p⟩ : FileStream) with pos := 0 } : FileStream) = ⟨c, 0⟩ from rfl,
      sha1UpdateLoop_eq c 0 [] (Nat.zero_le _)]
    simp
  obtain ⟨c, p⟩ := s
  refine ⟨main r c p, rfl, ?_, ?_⟩
  · intro ch hch
    have : (sha1HexBytes c).data = ((beBytes 4 _ ++ beBytes 4 _ ++ beBytes 4 _ ++
        beBytes 4 _ ++ beBytes 4 _).map byteToHex).flatten := rfl
    rw [this] at hch
    rcases List.mem_flatten.mp hch with ⟨l, hl, hcl⟩
    rcases List.mem_map.mp hl with ⟨b, _, rfl⟩
    rcases (by simpa [byteToHex] using hcl : ch = hexChar (b / 16 % 16) ∨ ch = hexChar (b % 16))
      with rfl | rfl <;> exact hexChar_mem _
  · rw [main r c p]
    rw [main _ c 0]

/-- Reading back the just-written (or just-deleted) entry of a tier. -/
theorem getStore_setStore_same (w : StorageWorld) (p : Bool) (n : String)
    (v : Option (List Nat)) : getStore (setStore w p n v) p n = v := by
  cases p <;> simp [getStore, setStore]

/-- Writing one tier leaves the other tier fully unchanged. -/
theorem getStore_setStore_other_tier (w : StorageWorld) (p : Bool) (n n' : String)
    (v : Option (List Nat)) : getStore (setStore w p n v) (!p) n' = getStore w (!p) n' := by
  cases p <;> simp [getStore, setStore]

/-- C6: when reading the file's size and hashing its contents raise during
the data-changed update (the file is unreadable, `blob = none`), the failure
is absorbed: `_file_size` becomes null, `sha1` becomes the empty string, and
the update still returns to its caller (with `True`) instead of
propagating. -/
theorem file_data_changed_absorbs_failure (r : File) (post_init : Bool)
    (hhint : r.data_changed_hint = none)
    (hguard : (post_init && truthySize r.file_size && (r.sha1 != "")) = false) :
    File.file_data_changed r none post_init
      = ({ r with file_size := none, sha1 := "" }, true) := by
  obtain ⟨pk, fn, pub, sh, fs, oldp, hint, orig⟩ := r
  change hint = none at hhint
  subst hhint
  change (post_init && truthySize fs && (sh != "")) = false at hguard
  simp [File.file_data_changed, fdcCore, hguard]

/-- Concrete run of `file_data_changed_absorbs_failure`: a record whose
blob has gone missing degrades to empty digest and null size. -/
theorem file_data_changed_absorbs_failure_witness :
    File.file_data_changed ⟨some 1, "f.txt", true, "abc", some 3, true, none, "f.txt"⟩ none false
      = (⟨some 1, "f.txt", true, "", none, true, none, "f.txt"⟩, true) :=
  file_data_changed_absorbs_failure _ false rfl rfl

/-- C9 counterexample: a record rehydrated with an existing digest and an
existing size of `0` (a persisted empty file) is re-hashed anyway — the
construction-time callback returns `True`, not `False`, because Python's
truthiness test `self._file_size and self.sha1` treats size 0 like a
missing size. -/
theorem file_data_changed_post_init_zero_size :
    (File.file_data_changed
      ⟨some 1, "empty.bin", true, "da39a3ee5e6b4b0d3255bfef95601890afd80709",
        some 0, true, none, "empty.bin"⟩
      (some ⟨[], 0⟩) true).2 = true := rfl

/-- C9 (amended): for a record rehydrated from persistence with a non-empty
digest and a non-null, non-zero size, the construction-time callback
(`post_init = True`) performs no hashing and no size read and returns
`False`, leaving the record untouched. -/
theorem file_data_changed_post_init_skips (r : File) (blob : Option FileStream)
    (hhint : r.data_changed_hint = none)
    (hsize : truthySize r.file_size = true)
    (hsha : (r.sha1 != "") = true) :
    File.file_data_changed r blob true = (r, false) := by
  obtain ⟨pk, fn, pub, sh, fs, oldp, hint, orig⟩ := r
  change hint = none at hhint
  subst hhint
  change truthySize fs = true at hsize
  change (sh != "") = true at hsha
  simp [File.file_data_changed, fdcCore, hsize, hsha]

/-- Concrete run of `file_data_changed_post_init_skips`. -/
theorem file_data_changed_post_init_skips_witness :
    File.file_data_changed ⟨some 2, "b.txt", false, "aa", some 5, false, none, "b.txt"⟩
      none true
      = (⟨some 2, "b.txt", false, "aa", some 5, false, none, "b.txt"⟩, false) :=
  file_data_changed_post_init_skips _ none rfl rfl rfl

/-- C4: a visibility move never changes the record's digest: a
data-changed callback invoked with the `False` hint set returns immediately
(recomputing neither size nor digest, only consuming the hint), and
`_move_file` — whether it succeeds or raises — leaves `sha1` and
`_file_size` exactly as they were. -/
theorem move_file_preserves_digest :
    (∀ (r : File) (blob : Option FileStream) (post_init : Bool),
      File.file_data_changed { r with data_changed_hint := some false } blob post_init
        = ({ r with data_changed_hint := none }, false)) ∧
    (∀ (genName : File → String) (w : StorageWorld) (r : File),
      (File.move_file genName w r).file.sha1 = r.sha1 ∧
      (File.move_file genName w r).file.file_size = r.file_size) := by
  constructor
  · intro r blob post_init
    rfl
  · intro genName w r
    unfold File.move_file
    cases hsrc : getStore w (!r.is_public) r.fileName with
    | none => simp [hsrc, MoveResult.file]
    | some contents =>
      by_cases hsave : w.saveOk = false <;>
        simp [hsrc, hsave, MoveResult.file, File.file_data_changed]

/-- C10: a non-empty canonical URL is only ever produced for a public
record with a file: if `is_public` is false or the file field is unset,
`canonical_url` is the empty string even when the canonical route is
configured. -/
theorem canonical_url_requires_public_file (r : File) (route : Option String) :
    ((r.is_public = false ∨ r.fileName = "") → File.canonical_url r route = "") ∧
    (File.canonical_url r route ≠ "" → r.fileName ≠ "" ∧ r.is_public = true) := by
  constructor
  · rintro (h | h) <;> simp [File.canonical_url, h]
  · intro h
    by_cases h1 : r.fileName ≠ "" ∧ r.is_public = true
    · exact h1
    · exact absurd (by simp [File.canonical_url, h1]) h

/-- Concrete run of `canonical_url_requires_public_file`: a private record
yields no canonical URL even though the route resolves. -/
theorem canonical_url_requires_public_file_witness :
    File.canonical_url ⟨some 1, "f.jpg", false, "", none, false, none, "f.jpg"⟩
      (some "/canonical/10/1/") = "" :=
  (canonical_url_requires_public_file _ _).1 (Or.inl rfl)

/-- C5: the ProxyHeaderRedirect and AcceleratedSendfile backends are total
(never raise), their responses do not depend on the storage world at all —
in particular not on whether the blob exists — they carry exactly the
configured redirect/path header, and the file handle state is returned
untouched (a closed handle stays closed). -/
theorem proxy_backends_never_raise (nloc loc : String) (w w2 : StorageWorld)
    (r : File) (c : Bool) :
    nginxServe nloc w r c = nginxServe nloc w2 r c ∧
    (nginxServe nloc w r c).1.headers = [("X-Accel-Redirect", nloc ++ "/" ++ r.fileName)] ∧
    (nginxServe nloc w r c).2 = c ∧
    xsendfileServe loc w r c = xsendfileServe loc w2 r c ∧
    (xsendfileServe loc w r c).1.headers = [("X-Sendfile", loc ++ "/" ++ r.fileName)] ∧
    (xsendfileServe loc w r c).2 = c :=
  ⟨rfl, rfl, rfl, rfl, rfl, rfl⟩

/-- C3 counterexample: `find_duplicates` does **not** exclude empty
digests.  For two distinct records that both carry an empty `sha1`, the
query on the first returns the second instead of the empty list the claim
requires. -/
theorem find_duplicates_empty_digest_counterexample :
    FileManager.find_duplicates
      [⟨some 1, "a.txt", true, "", none, true, none, "a.txt"⟩,
       ⟨some 2, "b.txt", true, "", none, true, none, "b.txt"⟩]
      ⟨some 1, "a.txt", true, "", none, true, none, "a.txt"⟩
      = [⟨some 2, "b.txt", true, "", none, true, none, "b.txt"⟩] := rfl

/-- C3 (amended): `find_duplicates(A)` returns exactly the records other
than `A` (by primary key) whose digest equals `A`'s digest — including when
that digest is empty: an empty digest matches other empty digests, so the
result for a digest-less record is all other digest-less records. -/
theorem find_duplicates_eq (db : List File) (file_obj x : File) :
    x ∈ FileManager.find_duplicates db file_obj ↔
      x ∈ db ∧ x.pk ≠ file_obj.pk ∧ x.sha1 = file_obj.sha1 := by
  simp [FileManager.find_duplicates, List.mem_filter, and_assoc]
  tauto

/-- C2: `delete(A)` removes `A`'s persisted entry (every surviving row has
a different pk, and every row with a different pk survives), then deletes
the physical blob iff no other record references the same
`(file name, is_public)` pair: if such a record exists the storage world is
left untouched, otherwise the blob entry is gone. -/
theorem delete_removes_record_then_guards_blob (db : List File) (w : StorageWorld) (r : File) :
    (∀ x ∈ (File.delete db w r).1, x.pk ≠ r.pk) ∧
    (∀ x ∈ db, x.pk ≠ r.pk → x ∈ (File.delete db w r).1) ∧
    ((∃ x ∈ db, x.pk ≠ r.pk ∧ x.fileName = r.fileName ∧ x.is_public = r.is_public) →
      (File.delete db w r).2 = w) ∧
    (¬(∃ x ∈ db, x.pk ≠ r.pk ∧ x.fileName = r.fileName ∧ x.is_public = r.is_public) →
      getStore (File.delete db w r).2 r.is_public r.fileName = none) := by
  refine ⟨?_, ?_, ?_, ?_⟩
  · intro x hx
    simp [File.delete, List.mem_filter] at hx
    exact hx.2
  · intro x hx hne
    simp [File.delete, List.mem_filter]
    exact ⟨hx, hne⟩
  · intro hex
    have hany : (db.filter (fun x => !(x.pk == r.pk))).any
        (fun x => x.fileName == r.fileName && x.is_public == r.is_public) = true := by
      rcases hex with ⟨x, hx, hpk, hname, hpub⟩
      simp only [List.any_eq_true, List.mem_filter]
      exact ⟨x, ⟨hx, by simp [hpk]⟩, by simp [hname, hpub]⟩
    simp [File.delete, hany]
  · intro hex
    have hany : ¬((db.filter (fun x => !(x.pk == r.pk))).any
        (fun x => x.fileName == r.fileName && x.is_public == r.is_public) = true) := by
      intro hc
      apply hex
      rcases List.any_eq_true.mp hc with ⟨x, hx, hpx⟩
      rw [List.mem_filter] at hx
      simp only [Bool.and_eq_true, beq_iff_eq] at hpx
      exact ⟨x, hx.1, by simpa using hx.2, hpx.1, hpx.2⟩
    simp only [File.delete]
    rw [if_neg hany]
    exact getStore_setStore_same w r.is_public r.fileName none

/-- Concrete run of `delete_removes_record_then_guards_blob`: deleting one
of two records that share a blob leaves the storage world untouched. -/
theorem delete_removes_record_then_guards_blob_witness :
    (File.delete
      [⟨some 1, "shared.txt", true, "d1", some 2, true, none, "shared.txt"⟩,
       ⟨some 2, "shared.txt", true, "d1", some 2, true, none, "shared.txt"⟩]
      demoWorld
      ⟨some 1, "shared.txt", true, "d1", some 2, true, none, "shared.txt"⟩).2 = demoWorld :=
  (delete_removes_record_then_guards_blob _ demoWorld _).2.2.1
    ⟨⟨some 2, "shared.txt", true, "d1", some 2, true, none, "shared.txt"⟩,
      by simp, by decide, rfl, rfl⟩

/-- C1: for a persisted record (non-null pk) whose `is_public` differs from
its previously-persisted value, `save` performs the visibility transition
with write-destination-before-delete-source ordering: when the destination
write succeeds, the destination tier holds the blob's full contents and the
source blob is gone (and `_old_is_public` is refreshed); when the
destination write raises, the operation surfaces the error with the source
blob still intact in the source tier. -/
theorem save_writes_destination_before_deleting_source
    (genName : File → String) (w : StorageWorld) (r : File) (bs : List Nat)
    (hpk : r.pk.isSome = true)
    (hdiff : r.old_is_public ≠ r.is_public)
    (hsrc : getStore w (!r.is_public) r.fileName = some bs) :
    (w.saveOk = true →
      (match File.save genName w r with
        | .ok w' r' =>
          getStore w' r.is_public (genName r) = some bs ∧
          getStore w' (!r.is_public) r.fileName = none ∧
          r'.old_is_public = r.is_public ∧ r'.sha1 = r.sha1
        | .err _ _ => False)) ∧
    (w.saveOk = false →
      (match File.save genName w r with
        | .ok _ _ => False
        | .err w' r' => getStore w' (!r.is_public) r.fileName = some bs ∧ w' = w)) := by
  obtain ⟨pk, fn, pub, sh, fs, oldp, hint, orig⟩ := r
  change pk.isSome = true at hpk
  change oldp ≠ pub at hdiff
  constructor
  · intro hok
    cases pub <;> cases oldp <;> [skip; skip; skip; exact absurd rfl hdiff]
    · exact absurd rfl hdiff
    all_goals
      simp [getStore] at hsrc
    all_goals
      simp [File.save, File.move_file, hsrc, hok, hpk, getStore, setStore,
        File.file_data_changed]
  · intro hfail
    cases pub <;> cases oldp <;> [skip; skip; skip; exact absurd rfl hdiff]
    · exact absurd rfl hdiff
    all_goals
      simp [getStore] at hsrc
    all_goals
      simp [File.save, File.move_file, hsrc, hfail, hpk, getStore, setStore]

/-- Concrete run of `save_writes_destination_before_deleting_source`, both
branches: with the destination write allowed, and with it failing. -/
theorem save_writes_destination_before_deleting_source_witness :
    (match File.save (fun _ => "dst.bin") (mkMoveWorld true) demoMoveRecord with
      | .ok w' r' =>
        getStore w' demoMoveRecord.is_public ((fun _ => "dst.bin") demoMoveRecord)
          = some [7, 7] ∧
        getStore w' (!demoMoveRecord.is_public) demoMoveRecord.fileName = none ∧
        r'.old_is_public = demoMoveRecord.is_public ∧ r'.sha1 = demoMoveRecord.sha1
      | .err _ _ => False) ∧
    (match File.save (fun _ => "dst.bin") (mkMoveWorld false) demoMoveRecord with
      | .ok _ _ => False
      | .err w' r' =>
        getStore w' (!demoMoveRecord.is_public) demoMoveRecord.fileName = some [7, 7] ∧
        w' = mkMoveWorld false) :=
  ⟨(save_writes_destination_before_deleting_source (fun _ => "dst.bin")
      (mkMoveWorld true) demoMoveRecord [7, 7] rfl (by decide) rfl).1 rfl,
   (save_writes_destination_before_deleting_source (fun _ => "dst.bin")
      (mkMoveWorld false) demoMoveRecord [7, 7] rfl (by decide) rfl).2 rfl⟩

/-- Looking up the key just written by an overwriting insert. -/
theorem lookupAssoc_insertAssoc_same (acc : List (String × List File)) (k : String)
    (v : List File) : lookupAssoc (insertAssoc acc k v) k = some v := by
  induction acc with
  | nil => simp [insertAssoc, lookupAssoc]
  | cons p r ih =>
    obtain ⟨k', v'⟩ := p
    by_cases h : k' = k <;> simp [insertAssoc, lookupAssoc, h, ih]

/-- An overwriting insert leaves every other key's binding unchanged. -/
theorem lookupAssoc_insertAssoc_ne (acc : List (String × List File)) (k d : String)
    (v : List File) (hne : k ≠ d) :
    lookupAssoc (insertAssoc acc k v) d = lookupAssoc acc d := by
  induction acc with
  | nil => simp [insertAssoc, lookupAssoc, hne]
  | cons p r ih =>
    obtain ⟨k', v'⟩ := p
    by_cases h1 : k' = k
    · subst h1
      simp [insertAssoc, lookupAssoc, hne]
    · by_cases h2 : k' = d <;> simp [insertAssoc, lookupAssoc, h1, h2, ih, hne, Ne.symm hne]

/-- Invariant of the `find_all_duplicates` fold: after processing any
prefix, digest `d` is bound iff some already-processed record carries it
and it denotes a genuine duplicate group, and then it is bound to the full
group. -/
theorem fad_fold_lookup (db : List File) (d : String) :
    ∀ (rest pre : List File) (acc : List (String × List File)),
      lookupAssoc acc d = (if ∃ f ∈ pre, f.sha1 = d then dupVal db d else none) →
      lookupAssoc (rest.foldl (fadStep db) acc) d
        = (if ∃ f ∈ pre ++ rest, f.sha1 = d then dupVal db d else none) := by
  intro rest
  induction rest with
  | nil =>
    intro pre acc h
    simpa using h
  | cons g rest ih =>
    intro pre acc h
    rw [List.foldl_cons]
    have hstep : lookupAssoc (fadStep db acc g) d
        = (if ∃ f ∈ pre ++ [g], f.sha1 = d then dupVal db d else none) := by
      by_cases hgs : g.sha1 = ""
      · have hstepeq : fadStep db acc g = acc := by simp [fadStep, hgs]
        rw [hstepeq, h]
        by_cases hd : d = ""
        · have hdv : dupVal db d = none := by simp [dupVal, hd]
          split_ifs <;> simp [hdv]
        · have hiff : (∃ f ∈ pre ++ [g], f.sha1 = d) ↔ (∃ f ∈ pre, f.sha1 = d) := by
            simp only [List.mem_append, List.mem_singleton]
            constructor
            · rintro ⟨f, hf | rfl, hfd⟩
              · exact ⟨f, hf, hfd⟩
              · exact absurd (hfd.symm.trans hgs) hd
            · rintro ⟨f, hf, hfd⟩
              exact ⟨f, Or.inl hf, hfd⟩
          rw [if_congr hiff rfl rfl]
      · by_cases hq : 1 < (db.filter (fun x => x.sha1 == g.sha1)).length
        · have hstepeq : fadStep db acc g
              = insertAssoc acc g.sha1 (db.filter (fun x => x.sha1 == g.sha1)) := by
            simp [fadStep, hgs, hq]
          rw [hstepeq]
          by_cases hd : g.sha1 = d
          · subst hd
            rw [lookupAssoc_insertAssoc_same]
            have hcond : ∃ f ∈ pre ++ [g], f.sha1 = g.sha1 := ⟨g, by simp, rfl⟩
            rw [if_pos hcond]
            simp [dupVal, hgs, hq]
          · rw [lookupAssoc_insertAssoc_ne acc g.sha1 d _ hd, h]
            have hiff : (∃ f ∈ pre ++ [g], f.sha1 = d) ↔ (∃ f ∈ pre, f.sha1 = d) := by
              simp only [List.mem_append, List.mem_singleton]
              constructor
              · rintro ⟨f, hf | rfl, hfd⟩
                · exact ⟨f, hf, hfd⟩
                · exact absurd hfd hd
              · rintro ⟨f, hf, hfd⟩
                exact ⟨f, Or.inl hf, hfd⟩
            rw [if_congr hiff rfl rfl]
        · have hstepeq : fadStep db acc g = acc := by simp [fadStep, hgs, hq]
          rw [hstepeq, h]
          by_cases hd : g.sha1 = d
          · have hdv : dupVal db d = none := by
              subst hd
              simp [dupVal, hq]
            split_ifs <;> simp [hdv]
          · have hiff : (∃ f ∈ pre ++ [g], f.sha1 = d) ↔ (∃ f ∈ pre, f.sha1 = d) := by
              simp only [List.mem_append, List.mem_singleton]
              constructor
              · rintro ⟨f, hf | rfl, hfd⟩
                · exact ⟨f, hf, hfd⟩
                · exact absurd hfd hd
              · rintro ⟨f, hf, hfd⟩
                exact ⟨f, Or.inl hf, hfd⟩
            rw [if_congr hiff rfl rfl]
    have := ih (pre ++ [g]) (fadStep db acc g) hstep
    rwa [List.append_assoc, List.singleton_append] at this

/-- C8: `find_all_duplicates` maps a digest to a group exactly when the
digest is non-empty and shared by two or more records, and then the group
is precisely the records carrying that digest; size-1 groups and the empty
digest never appear. -/
theorem find_all_duplicates_groups (db : List File) (d : String) (q : List File) :
    lookupAssoc (FileManager.find_all_duplicates db) d = some q ↔
      d ≠ "" ∧ q = db.filter (fun x => x.sha1 == d) ∧ 1 < q.length := by
  have h0 : lookupAssoc ([] : List (String × List File)) d
      = (if ∃ f ∈ ([] : List File), f.sha1 = d then dupVal db d else none) := by
    simp [lookupAssoc]
  have h := fad_fold_lookup db d db [] [] h0
  rw [List.nil_append] at h
  unfold FileManager.find_all_duplicates
  rw [h]
  by_cases hex : ∃ f ∈ db, f.sha1 = d
  · rw [if_pos hex]
    unfold dupVal
    by_cases hc : d ≠ "" ∧ 1 < (db.filter (fun x => x.sha1 == d)).length
    · rw [if_pos hc]
      constructor
      · intro h2
        injection h2 with h2
        exact ⟨hc.1, h2.symm, h2 ▸ hc.2⟩
      · rintro ⟨_, h2, _⟩
        rw [h2]
    · rw [if_neg hc]
      constructor
      · intro h2
        cases h2
      · rintro ⟨h1, h2, h3⟩
        exact absurd ⟨h1, by rw [← h2]; exact h3⟩ hc
  · rw [if_neg hex]
    constructor
    · intro h2
      cases h2
    · rintro ⟨h1, h2, h3⟩
      exfalso
      apply hex
      subst h2
      have hnn : (db.filter (fun x => x.sha1 == d)) ≠ [] := by
        intro hnil
        rw [hnil] at h3
        simp at h3
      obtain ⟨x, hx⟩ := List.exists_mem_of_ne_nil _ hnn
      rw [List.mem_filter] at hx
      exact ⟨x, hx.1, by simpa using hx.2⟩
